import Mathlib

/-!
Shallow embedding of the TAW task core (task store, handler lock,
corruption detector, recovery engine, completion detector, backlog queue)
with theorems settling the frozen specification claims.

Filesystem paths are modelled as lists of components; directory contents
as lists of such paths; fallible OS and driver calls as explicit result
values or injected boolean outcomes.
-/

namespace TAW

/-! ## Handler lock: Task.CreateTabLock -/

/-- State of the filesystem relevant to one task's tab-lock directory:
whether the lock directory exists, and whether the OS would fail the
mkdir call for a reason other than the directory existing. -/
structure LockFS where
  dirPresent : Bool
  failInjected : Bool
deriving DecidableEq, Repr

inductive MkdirResult where
  | ok
  | errExists
  | errOther
deriving DecidableEq, Repr

/-- os.Mkdir on the lock path: EEXIST when the directory is already
there, an injected other failure, or success creating the directory. -/
def mkdirLock (fs : LockFS) : MkdirResult × LockFS :=
  if fs.dirPresent then (.errExists, fs)
  else if fs.failInjected then (.errOther, fs)
  else (.ok, { fs with dirPresent := true })

inductive LockErr where
  | mkdirFailed
deriving DecidableEq, Repr

/-- Task.CreateTabLock: mkdir the lock dir; success is (true, no error),
already-exists is (false, no error), any other failure is an error. -/
def createTabLock (fs : LockFS) : (Bool × Option LockErr) × LockFS :=
  match mkdirLock fs with
  | (.ok, fs1) => ((true, none), fs1)
  | (.errExists, fs1) => ((false, none), fs1)
  | (.errOther, fs1) => ((false, some .mkdirFailed), fs1)

/-! ## Task.LoadPRNumber -/

/-- Outcome of reading a small marker file. -/
inductive ReadResult where
  | content (s : String)
  | notFound
  | readErr
deriving DecidableEq, Repr

def digitsVal (l : List Char) : Nat :=
  l.foldl (fun acc c => acc * 10 + (c.toNat - 48)) 0

/-- Go strings.TrimSpace: drop the whitespace on both ends. Stated over
the character list of the string so that it evaluates by kernel
reduction. -/
def trimGo (s : String) : String :=
  ⟨((s.data.dropWhile Char.isWhitespace).reverse.dropWhile
      Char.isWhitespace).reverse⟩

/-- Go fmt.Sscanf with a %d verb: an optional sign followed by a digit
run; fails when no digit is present; trailing input is ignored. -/
def parseGoInt (s : String) : Option Int :=
  match s.data with
  | [] => none
  | c :: rest =>
    if c = '-' then
      let ds := rest.takeWhile Char.isDigit
      if ds.isEmpty then none else some (-(digitsVal ds : Int))
    else if c = '+' then
      let ds := rest.takeWhile Char.isDigit
      if ds.isEmpty then none else some (digitsVal ds : Int)
    else
      let ds := (c :: rest).takeWhile Char.isDigit
      if ds.isEmpty then none else some (digitsVal ds : Int)

inductive LoadErr where
  | ioFailed
  | parseFailed
deriving DecidableEq, Repr

/-- Task.LoadPRNumber: a missing .pr file yields (0, nil); any other
read error is returned; otherwise the trimmed content is parsed with
Sscanf %d, a parse failure being an error. -/
def loadPRNumber (r : ReadResult) : Int × Option LoadErr :=
  match r with
  | .notFound => (0, none)
  | .readErr => (0, some .ioFailed)
  | .content s =>
    match parseGoInt (trimGo s) with
    | some n => (n, none)
    | none => (0, some .parseFailed)

/-! ## Backlog queue: QueueManager -/

/-- One entry of the backlog queue as QueueManager.List returns it. -/
structure QueuedTask where
  num : Nat
  path : String
  content : String
deriving DecidableEq, Repr

/-- Go fmt.Sprintf %03d: decimal, zero padded to at least three digits. -/
def pad3 (n : Nat) : String :=
  if n < 10 then "00" ++ toString n
  else if n < 100 then "0" ++ toString n
  else toString n

/-- File name QueueManager.Add writes for sequence number n. -/
def taskFileName (n : Nat) : String := pad3 n ++ ".task"

/-- The regexp match on a queue file name, a nonempty digit run
followed by the .task suffix, combined with the Sscanf %d of the digit
run. -/
def parseQueueName (s : String) : Option Nat :=
  match s.data.reverse with
  | 'k' :: 's' :: 'a' :: 't' :: '.' :: stemRev =>
    let stem := stemRev.reverse
    if stem.length > 0 && stem.all Char.isDigit then some (digitsVal stem)
    else none
  | _ => none

def insertTask (t : QueuedTask) : List QueuedTask → List QueuedTask
  | [] => [t]
  | u :: us => if t.num ≤ u.num then t :: u :: us else u :: insertTask t us

/-- sort.Slice over queued tasks by sequence number. -/
def sortTasks : List QueuedTask → List QueuedTask
  | [] => []
  | t :: ts => insertTask t (sortTasks ts)

/-- The queue directory as a list of (file name, file content) pairs. -/
abbrev QueueFS := List (String × String)

/-- QueueManager.List: keep the files whose names match the queue
pattern, parse their numbers, and sort by number, independent of the
enumeration order of the directory. -/
def listQueue (files : QueueFS) : List QueuedTask :=
  sortTasks (files.filterMap fun f =>
    (parseQueueName f.1).map fun n => QueuedTask.mk n f.1 f.2)

def lastNumPlusOne : List QueuedTask → Nat
  | [] => 1
  | [t] => t.num + 1
  | _ :: t :: ts => lastNumPlusOne (t :: ts)

/-- QueueManager.getNextNumber: one past the number of the last entry
of the sorted listing, or 1 when the queue is empty. -/
def getNextNumber (files : QueueFS) : Nat :=
  lastNumPlusOne (listQueue files)

/-- QueueManager.Add: write a new file named after the next number. -/
def addQueue (files : QueueFS) (content : String) : QueueFS :=
  files ++ [(taskFileName (getNextNumber files), content)]

/-- QueueManager.Pop: take the first entry of the sorted listing and
remove its file; on an empty queue return no entry and no error. -/
def popQueue (files : QueueFS) : Option QueuedTask × QueueFS :=
  match listQueue files with
  | [] => (none, files)
  | t :: _ => (some t, files.eraseP (fun f => f.1 == t.path))

/-! ## Task store: Manager.createTaskDirectory and Manager.CreateTask -/

/-- The directory name tried at attempt i: the base name itself first,
then the base name with a numeric suffix. -/
def candidateName (base : String) (i : Nat) : String :=
  if i = 0 then base else base ++ "-" ++ toString i

/-- The loop of Manager.createTaskDirectory from attempt i upward:
os.Mkdir the candidate, returning it on success, retrying the next
suffix when it already exists, while the loop condition i ≤ 100 holds.
The fuel argument only makes the recursion structural; any fuel of at
least 101 - i never runs out before the loop condition stops. -/
def createTaskDirLoop (existing : List String) (base : String) :
    Nat → Nat → Option String
  | _, 0 => none
  | i, fuel + 1 =>
    if i ≤ 100 then
      let name := candidateName base i
      if name ∈ existing then createTaskDirLoop existing base (i + 1) fuel
      else some name
    else none

/-- Manager.createTaskDirectory: try base, base-1, ... in order against
the set of already existing directory names; none is the resource
exhaustion failure. -/
def createTaskDirectory (existing : List String) (base : String) :
    Option String :=
  createTaskDirLoop existing base 0 102

/-- The fallback task name used when the naming collaborator fails,
derived from the process id. -/
def fallbackName (pid : Nat) : String := "task-" ++ toString pid

/-- The name CreateTask uses: the collaborator's name when it succeeds,
else the pid-derived fallback. The timestamp argument records the wall
clock at the call and is unused by the code. -/
def generateTaskName (claudeResult : Option String) (pid timestamp : Nat) :
    String :=
  match claudeResult with
  | some name => name
  | none =>
    let _ := timestamp
    fallbackName pid

/-- Inputs of one Manager.CreateTask call. -/
structure CreateEnv where
  claudeResult : Option String
  pid : Nat
  timestamp : Nat
  existing : List String
  saveOk : Bool
deriving Repr

/-- Manager.CreateTask: generate a name (fallback on collaborator
failure), allocate the directory, save the content; the allocated task
name on success. -/
def createTask (e : CreateEnv) : Option String :=
  let name := generateTaskName e.claudeResult e.pid e.timestamp
  match createTaskDirectory e.existing name with
  | none => none
  | some n => if e.saveOk then some n else none

/-! ## Corruption detector: Manager.checkWorktreeStatus -/

/-- The closed set of corruption causes of the code. -/
inductive CorruptedReason where
  | missingWorktree
  | notInGit
  | invalidGit
  | missingBranch
deriving DecidableEq, Repr

/-- A filesystem path as its list of components. -/
abbrev FPath := List String

/-- The registration test of checkWorktreeStatus: a listed worktree path
matches when it equals the expected directory, or when its last component
equals the directory's base name with a separator in front. -/
def worktreeMatches (dir p : FPath) : Bool :=
  p == dir || (decide (2 ≤ p.length) && p.getLast? == dir.getLast?)

/-- The state checkWorktreeStatus observes for one task. -/
structure WorktreeEnv where
  dirExists : Bool
  isDir : Bool
  gitMarkerExists : Bool
  worktreeListResult : Option (List FPath)
  branchExists : Bool
  worktreeDir : FPath

/-- Manager.checkWorktreeStatus: diagnose in order missing directory
(only a corruption when the branch still exists), non-directory or
missing .git marker, registry listing failure or absence, and finally a
missing branch; none is healthy. -/
def checkWorktreeStatus (e : WorktreeEnv) : Option CorruptedReason :=
  if !e.dirExists then
    if e.branchExists then some .missingWorktree else none
  else if !e.isDir then some .invalidGit
  else if !e.gitMarkerExists then some .invalidGit
  else
    match e.worktreeListResult with
    | none => some .notInGit
    | some wts =>
      if wts.any (worktreeMatches e.worktreeDir) then
        if e.branchExists then none else some .missingBranch
      else some .notInGit

/-! ## Completion detector: Manager.isTaskMerged and gitClient.BranchMerged -/

/-- One output line of the merged-branch listing as BranchMerged reads
it: drop a leading star, trim the spaces. -/
def lineName (l : String) : String :=
  trimGo (match l.data with
          | '*' :: rest => ⟨rest⟩
          | _ => l)

/-- gitClient.BranchMerged: the listing command failed, or some line
names the branch. -/
def branchMerged (listing : Option (List String)) (branch : String) : Bool :=
  match listing with
  | none => false
  | some lines => lines.any fun l => lineName l == branch

/-- What the completion detector observes for one task. -/
structure MergeEnv where
  prFile : ReadResult
  prMergedResult : Int → Option Bool
  mergedListing : Option (List String)
  existingBranches : List String

/-- Task.HasPR: the .pr file is present (even if unreadable). -/
def hasPR (r : ReadResult) : Bool :=
  match r with
  | .notFound => false
  | _ => true

/-- Manager.isTaskMerged: landed through a recorded review request the
platform reports merged, or through the merged-branch listing. -/
def isTaskMerged (e : MergeEnv) (taskName : String) : Bool :=
  (if hasPR e.prFile then
    match loadPRNumber e.prFile with
    | (n, none) =>
      if 0 < n then
        match e.prMergedResult n with
        | some true => true
        | _ => false
      else false
    | (_, some _) => false
  else false)
  || branchMerged e.mergedListing taskName

/-! ## Recovery engine: RecoveryManager.recoverInvalidGit -/

/-- The exclusion rule of copyDirContents with exclude = [.git]: an
entry whose base name is .git is skipped, a directory so named with its
whole subtree, so a file is copied exactly when no component of its
relative path is .git. -/
def copyKeep (p : FPath) : Bool := !(p.contains ".git")

/-- State recoverInvalidGit acts on: the file set of the directory at
the worktree path, of the backup path, and branch existence. -/
structure RecState where
  origTree : Option (List FPath)
  backupTree : Option (List FPath)
  branchExists : Bool
deriving Repr

inductive RecResult where
  | ok
  | renameFailed
  | addFailed
  | copyFailed
deriving DecidableEq, Repr

structure RecOutcome where
  state : RecState
  result : RecResult
  branchCreateRequested : Bool
deriving Repr

/-- RecoveryManager.recoverInvalidGit: record branch existence, rename
the worktree to the backup path, prune, recreate the worktree (passing
createBranch exactly when the branch is gone; on failure rename the
backup to the original path before returning the error), copy the backup
contents minus .git entries over the fresh tree, and remove the backup.
addOk and copyOk inject the outcomes of the fallible steps, fresh is the
file set WorktreeAdd materializes. -/
def recoverInvalidGit (addOk copyOk : Bool) (fresh : List FPath)
    (s : RecState) : RecOutcome :=
  match s.origTree with
  | none => ⟨s, .renameFailed, false⟩
  | some wt =>
    let createBranch := !s.branchExists
    if addOk then
      if copyOk then
        ⟨⟨some (fresh ++ wt.filter copyKeep), none, true⟩, .ok, createBranch⟩
      else
        ⟨⟨some fresh, some wt, true⟩, .copyFailed, createBranch⟩
    else
      ⟨⟨some wt, none, s.branchExists⟩, .addFailed, createBranch⟩

/-! ## Task store teardown: Manager.CleanupTask -/

/-- The per-task resources CleanupTask tears down. -/
structure CleanState where
  worktreeDirExists : Bool
  registered : Bool
  branchExists : Bool
  agentDirExists : Bool
deriving DecidableEq, Repr

inductive CleanErr where
  | removeFailed
deriving DecidableEq, Repr

/-- Manager.CleanupTask in worktree mode: remove the worktree when its
directory exists (driver removal unregisters it; on driver failure fall
back to a recursive delete that leaves a stale registration), prune
stale registrations, delete the branch when it exists, then remove the
task's directory; outside worktree mode only the last step runs. The
recursive deletes never fail, so the call reports no error. -/
def cleanupTask (worktreeMode wtRemoveOk : Bool) (s : CleanState) :
    CleanState × Option CleanErr :=
  let s1 :=
    if worktreeMode then
      let sA :=
        if s.worktreeDirExists then
          if wtRemoveOk then { s with worktreeDirExists := false, registered := false }
          else { s with worktreeDirExists := false }
        else s
      let sB := { sA with registered := sA.registered && sA.worktreeDirExists }
      if sB.branchExists then { sB with branchExists := false } else sB
    else s
  ({ s1 with agentDirExists := false }, none)

/-! ## Theorems -/

/-- C1: acquiring the handler lock by exclusive atomic creation of the
lock directory returns acquired = true when the lock directory did not
exist (creating it), returns acquired = false with no error when it
already exists, and returns an error only on any other filesystem
failure; hence of two successive acquisitions with no intervening
release at most one returns true. -/
theorem createTabLock_spec (fs : LockFS) :
    (fs.dirPresent = false → fs.failInjected = false →
      createTabLock fs = ((true, none), ⟨true, false⟩))
  ∧ (fs.dirPresent = true → createTabLock fs = ((false, none), fs))
  ∧ (fs.dirPresent = false → fs.failInjected = true →
      createTabLock fs = ((false, some .mkdirFailed), fs))
  ∧ ((createTabLock fs).1.1 && (createTabLock (createTabLock fs).2).1.1)
      = false := by
  obtain ⟨d, f⟩ := fs
  cases d <;> cases f <;> decide

/-- Witness for C1: on a lock-free filesystem the first acquisition
returns true, and with the directory present it returns false with no
error. -/
theorem createTabLock_spec_witness :
    createTabLock ⟨false, false⟩ = ((true, none), ⟨true, false⟩)
  ∧ createTabLock ⟨true, false⟩ = ((false, none), ⟨true, false⟩) :=
  ⟨(createTabLock_spec ⟨false, false⟩).1 rfl rfl,
   (createTabLock_spec ⟨true, false⟩).2.1 rfl⟩

/-- C9: CleanupTask is idempotent — whatever the first call did, a
second call on the resulting state returns that state unchanged and
reports no error. -/
theorem cleanupTask_idempotent (worktreeMode ok1 ok2 : Bool)
    (s : CleanState) :
    cleanupTask worktreeMode ok2 (cleanupTask worktreeMode ok1 s).1 =
      ((cleanupTask worktreeMode ok1 s).1, none) := by
  obtain ⟨w, r, b, a⟩ := s
  cases worktreeMode <;> cases ok1 <;> cases ok2 <;>
    cases w <;> cases r <;> cases b <;> cases a <;> decide

/-- C10: LoadPRNumber folds a missing .pr file into the value 0 with no
error, while any other read failure or a parse failure of the content
is returned as an error. -/
theorem loadPRNumber_spec :
    (loadPRNumber .notFound = (0, none))
  ∧ (loadPRNumber .readErr = (0, some .ioFailed))
  ∧ (∀ s n, parseGoInt (trimGo s) = some n →
      loadPRNumber (.content s) = (n, none))
  ∧ (∀ s, parseGoInt (trimGo s) = none →
      loadPRNumber (.content s) = (0, some .parseFailed)) := by
  refine ⟨rfl, rfl, ?_, ?_⟩
  · intro s n h
    simp [loadPRNumber, h]
  · intro s h
    simp [loadPRNumber, h]

/-- Witness for C10: a numeric .pr file loads its value, a
non-numeric one is a parse error. -/
theorem loadPRNumber_spec_witness :
    loadPRNumber (.content " 42 ") = (42, none)
  ∧ loadPRNumber (.content "abc") = (0, some .parseFailed) :=
  ⟨loadPRNumber_spec.2.2.1 " 42 " 42 (by decide),
   loadPRNumber_spec.2.2.2 "abc" (by decide)⟩

/-- Counterexample to C2 as stated: a task whose workspace directory is
absent while its branch is also gone is diagnosed healthy (the code
treats it as already cleaned up), not MissingWorkspace. -/
theorem checkWorktreeStatus_absent_branchless_healthy :
    checkWorktreeStatus ⟨false, true, true, some [], false,
      ["tasks", "worktree"]⟩ = none
  ∧ checkWorktreeStatus ⟨false, true, true, some [], false,
      ["tasks", "worktree"]⟩ ≠ some .missingWorktree := by
  decide

/-- C2 (amended): the diagnosis follows the fixed order with first
match winning — directory absent yields MissingWorkspace exactly when
the task's branch still exists and healthy otherwise; a present
non-directory or missing .git marker yields InvalidWorkspaceMarker; a
failing registry listing or absence from it yields
UnregisteredWorkspace; a registered tree without its branch yields
MissingBranch; otherwise healthy — and the result is always exactly one
of those five. -/
theorem checkWorktreeStatus_cases (e : WorktreeEnv) :
    (e.dirExists = false →
      checkWorktreeStatus e =
        if e.branchExists then some .missingWorktree else none)
  ∧ (e.dirExists = true → e.isDir = false →
      checkWorktreeStatus e = some .invalidGit)
  ∧ (e.dirExists = true → e.isDir = true → e.gitMarkerExists = false →
      checkWorktreeStatus e = some .invalidGit)
  ∧ (e.dirExists = true → e.isDir = true → e.gitMarkerExists = true →
      e.worktreeListResult = none →
      checkWorktreeStatus e = some .notInGit)
  ∧ (∀ wts, e.dirExists = true → e.isDir = true →
      e.gitMarkerExists = true → e.worktreeListResult = some wts →
      checkWorktreeStatus e =
        if wts.any (worktreeMatches e.worktreeDir) then
          if e.branchExists then none else some .missingBranch
        else some .notInGit) := by
  obtain ⟨d, idir, g, wlr, b, dir⟩ := e
  refine ⟨?_, ?_, ?_, ?_, ?_⟩
  · intro h1
    subst h1
    simp [checkWorktreeStatus]
  · intro h1 h2
    subst h1
    subst h2
    simp [checkWorktreeStatus]
  · intro h1 h2 h3
    subst h1
    subst h2
    subst h3
    simp [checkWorktreeStatus]
  · intro h1 h2 h3 h4
    subst h1
    subst h2
    subst h3
    subst h4
    simp [checkWorktreeStatus]
  · intro wts h1 h2 h3 h4
    subst h1
    subst h2
    subst h3
    subst h4
    simp [checkWorktreeStatus]

/-- Witness for C2 (amended): an absent workspace directory with the
branch still present is diagnosed MissingWorkspace. -/
theorem checkWorktreeStatus_cases_witness :
    checkWorktreeStatus ⟨false, true, true, some [], true,
      ["tasks", "worktree"]⟩ = some .missingWorktree := by
  have h := (checkWorktreeStatus_cases ⟨false, true, true, some [], true,
    ["tasks", "worktree"]⟩).1 rfl
  simpa using h

theorem mem_insertTask {u t : QueuedTask} {l : List QueuedTask} :
    u ∈ insertTask t l ↔ u = t ∨ u ∈ l := by
  induction l with
  | nil => simp [insertTask]
  | cons v vs ih =>
    simp only [insertTask]
    split
    · simp [List.mem_cons]
    · simp only [List.mem_cons, ih]
      tauto

theorem pairwise_insertTask {t : QueuedTask} {l : List QueuedTask}
    (h : l.Pairwise fun a b => a.num ≤ b.num) :
    (insertTask t l).Pairwise fun a b => a.num ≤ b.num := by
  induction l with
  | nil => simp [insertTask]
  | cons v vs ih =>
    rw [List.pairwise_cons] at h
    simp only [insertTask]
    split
    · rename_i hle
      refine List.Pairwise.cons ?_ (List.Pairwise.cons h.1 h.2)
      intro x hx
      rcases List.mem_cons.mp hx with rfl | hx
      · exact hle
      · exact le_trans hle (h.1 x hx)
    · rename_i hgt
      refine List.Pairwise.cons ?_ (ih h.2)
      intro x hx
      rcases mem_insertTask.mp hx with rfl | hx
      · omega
      · exact h.1 x hx

theorem mem_sortTasks {u : QueuedTask} {l : List QueuedTask} :
    u ∈ sortTasks l ↔ u ∈ l := by
  induction l with
  | nil => simp [sortTasks]
  | cons t ts ih => simp [sortTasks, mem_insertTask, ih]

theorem pairwise_sortTasks (l : List QueuedTask) :
    (sortTasks l).Pairwise fun a b => a.num ≤ b.num := by
  induction l with
  | nil => simp [sortTasks]
  | cons t ts ih => exact pairwise_insertTask ih

theorem pairwise_listQueue (files : QueueFS) :
    (listQueue files).Pairwise fun a b => a.num ≤ b.num :=
  pairwise_sortTasks _

theorem lastNumPlusOne_spec :
    ∀ (l : List QueuedTask), l ≠ [] →
      l.Pairwise (fun a b => a.num ≤ b.num) →
      ∃ m ∈ l, lastNumPlusOne l = m.num + 1 ∧ ∀ u ∈ l, u.num ≤ m.num
  | [], h, _ => absurd rfl h
  | [t], _, _ => ⟨t, by simp [lastNumPlusOne]⟩
  | t :: u :: us, _, hp => by
    rw [List.pairwise_cons] at hp
    obtain ⟨m, hm, he, hmax⟩ :=
      lastNumPlusOne_spec (u :: us) (by simp) hp.2
    refine ⟨m, List.mem_cons_of_mem _ hm, ?_, ?_⟩
    · simpa [lastNumPlusOne] using he
    · intro x hx
      rcases List.mem_cons.mp hx with rfl | hx
      · exact hp.1 m hm
      · exact hmax x hx

/-- Counterexample to C4 as stated: Add to an empty queue assigns
sequence 1, Pop deletes that entry, and a second Add assigns sequence 1
again — a number once assigned to a since-deleted entry is reassigned. -/
theorem addQueue_reuses_deleted_number :
    addQueue ([] : QueueFS) "a" = [("001.task", "a")]
  ∧ popQueue [("001.task", "a")] =
      (some ⟨1, "001.task", "a"⟩, ([] : QueueFS))
  ∧ addQueue (popQueue (addQueue ([] : QueueFS) "a")).2 "b" =
      [("001.task", "b")] := by
  decide

/-- C4 (amended): Add assigns 1 + the current maximum sequence number
(or 1 when the queue is empty), so the assigned number is strictly above
every live entry's number; numbers below the current maximum are hence
never reassigned while the maximum stays, but once the entry holding
the maximum is deleted its number can be reassigned. -/
theorem getNextNumber_spec (files : QueueFS) :
    (listQueue files = [] → getNextNumber files = 1)
  ∧ (∀ t ∈ listQueue files, t.num < getNextNumber files)
  ∧ (listQueue files ≠ [] →
      ∃ m ∈ listQueue files, getNextNumber files = m.num + 1 ∧
        ∀ u ∈ listQueue files, u.num ≤ m.num) := by
  refine ⟨?_, ?_, ?_⟩
  · intro h
    simp [getNextNumber, h, lastNumPlusOne]
  · intro t ht
    have hne : listQueue files ≠ [] := by
      intro h
      rw [h] at ht
      cases ht
    obtain ⟨m, hm, he, hmax⟩ :=
      lastNumPlusOne_spec _ hne (pairwise_listQueue files)
    have h1 := hmax t ht
    show t.num < lastNumPlusOne (listQueue files)
    omega
  · intro hne
    have h := lastNumPlusOne_spec _ hne (pairwise_listQueue files)
    exact h

/-- Witness for C4 (amended): with live entries 001 and 003 the next
number is 4, one past the maximum 3. -/
theorem getNextNumber_spec_witness :
    ∃ m ∈ listQueue [("001.task", "a"), ("003.task", "c")],
      getNextNumber [("001.task", "a"), ("003.task", "c")] = m.num + 1 ∧
      ∀ u ∈ listQueue [("001.task", "a"), ("003.task", "c")],
        u.num ≤ m.num :=
  (getNextNumber_spec [("001.task", "a"), ("003.task", "c")]).2.2
    (by decide)

/-- C7: Pop returns the entry with the lowest sequence number of the
numerically sorted listing and deletes exactly its file, and on an
empty queue returns no entry, no error, and an unchanged directory. -/
theorem popQueue_spec (files : QueueFS) :
    (listQueue files = [] → popQueue files = (none, files))
  ∧ (∀ t, (popQueue files).1 = some t →
      (t ∈ listQueue files ∧ ∀ u ∈ listQueue files, t.num ≤ u.num) ∧
      (popQueue files).2 = files.eraseP (fun f => f.1 == t.path)) := by
  constructor
  · intro h
    simp [popQueue, h]
  · intro t ht
    rcases hl : listQueue files with _ | ⟨t0, ts⟩
    · rw [popQueue] at ht
      rw [hl] at ht
      cases ht
    · have hp := pairwise_listQueue files
      rw [hl, List.pairwise_cons] at hp
      rw [popQueue, hl] at ht
      have ht0 : t0 = t := by
        simpa using ht
      subst ht0
      refine ⟨⟨List.mem_cons_self _ _, ?_⟩, ?_⟩
      · intro u hu
        rcases List.mem_cons.mp hu with rfl | hu
        · exact le_refl _
        · exact hp.1 u hu
      · rw [popQueue, hl]

/-- Witness for C7: on the scenario queue holding 001, 002, 003 listed
in arbitrary enumeration order, Pop returns entry 1, the minimum; and
Pop on the empty queue returns no entry and no change. -/
theorem popQueue_spec_witness :
    ((⟨1, "001.task", "a"⟩ : QueuedTask) ∈
        listQueue [("003.task", "c"), ("001.task", "a"), ("002.task", "b")]
      ∧ ∀ u ∈ listQueue
          [("003.task", "c"), ("001.task", "a"), ("002.task", "b")],
          (1 : Nat) ≤ u.num)
  ∧ popQueue ([] : QueueFS) = (none, ([] : QueueFS)) := by
  have h2 := (popQueue_spec ([] : QueueFS)).1 (by decide)
  have h1 := (popQueue_spec
    [("003.task", "c"), ("001.task", "a"), ("002.task", "b")]).2
    ⟨1, "001.task", "a"⟩ (by decide)
  exact ⟨h1.1, h2⟩

theorem createTaskDirLoop_sound (existing : List String) (base : String) :
    ∀ (fuel i : Nat), 101 - i ≤ fuel →
      ((∀ n, createTaskDirLoop existing base i fuel = some n →
          n ∉ existing ∧ ∃ m, i ≤ m ∧ m ≤ 100 ∧ n = candidateName base m ∧
            ∀ j, i ≤ j → j < m → candidateName base j ∈ existing)
      ∧ (createTaskDirLoop existing base i fuel = none ↔
          ∀ m, i ≤ m → m ≤ 100 → candidateName base m ∈ existing)) := by
  intro fuel
  induction fuel with
  | zero =>
    intro i hk
    have hi : ¬ i ≤ 100 := by omega
    constructor
    · intro n hn
      simp [createTaskDirLoop] at hn
    · simp only [createTaskDirLoop, true_iff]
      intro m h1 h2
      exact absurd (by omega : i ≤ 100) hi
  | succ fuel ih =>
    intro i hk
    by_cases hi : i ≤ 100
    · by_cases hmem : candidateName base i ∈ existing
      · have heq : createTaskDirLoop existing base i (fuel + 1) =
            createTaskDirLoop existing base (i + 1) fuel := by
          simp [createTaskDirLoop, hi, hmem]
        have ihi := ih (i + 1) (by omega)
        constructor
        · intro n hn
          rw [heq] at hn
          obtain ⟨hnot, m, hm1, hm2, hm3, hall⟩ := ihi.1 n hn
          refine ⟨hnot, m, by omega, hm2, hm3, ?_⟩
          intro j hj1 hj2
          by_cases hji : j = i
          · subst hji
            exact hmem
          · exact hall j (by omega) hj2
        · rw [heq, ihi.2]
          constructor
          · intro hall m h1 h2
            by_cases hmi : m = i
            · subst hmi
              exact hmem
            · exact hall m (by omega) h2
          · intro hall m h1 h2
            exact hall m (by omega) h2
      · constructor
        · intro n hn
          have hsome : some (candidateName base i) = some n := by
            simpa [createTaskDirLoop, hi, hmem] using hn
          obtain rfl := Option.some.inj hsome
          refine ⟨hmem, i, le_refl i, hi, rfl, ?_⟩
          intro j hj1 hj2
          exact absurd (by omega : True) (by omega)
        · simp only [createTaskDirLoop, if_pos hi, if_neg hmem]
          constructor
          · intro hc
            cases hc
          · intro hall
            exact absurd (hall i (le_refl i) hi) hmem
    · constructor
      · intro n hn
        simp [createTaskDirLoop, hi] at hn
      · simp only [createTaskDirLoop, if_neg hi, true_iff]
        intro m h1 h2
        exact absurd (by omega : i ≤ 100) hi

/-- C5: createTaskDirectory never returns a name that already exists —
the exclusive creation primitive allocates a fresh directory — and the
names tried are the deterministic sequence base, base-1, base-2, ... in
order, the returned name being the first free one; when the base name
and all 100 suffixed retries collide, creation fails with the
resource-exhausted error. -/
theorem createTaskDirectory_spec (existing : List String) (base : String) :
    (∀ n, createTaskDirectory existing base = some n →
      n ∉ existing ∧ ∃ i, i ≤ 100 ∧ n = candidateName base i ∧
        ∀ j, j < i → candidateName base j ∈ existing)
  ∧ (createTaskDirectory existing base = none ↔
      ∀ i, i ≤ 100 → candidateName base i ∈ existing) := by
  have h := createTaskDirLoop_sound existing base 102 0 (by omega)
  constructor
  · intro n hn
    obtain ⟨hnot, m, _, hm2, hm3, hall⟩ := h.1 n hn
    exact ⟨hnot, m, hm2, hm3, fun j hj => hall j (Nat.zero_le j) hj⟩
  · rw [show createTaskDirectory existing base =
        createTaskDirLoop existing base 0 102 from rfl, h.2]
    constructor
    · intro hall i hi
      exact hall i (Nat.zero_le i) hi
    · intro hall m _ hm
      exact hall m hm

/-- Witness for C5: with foo and foo-1 taken, allocation returns foo-2,
a fresh name, the candidate of index 2 whose predecessors all collide. -/
theorem createTaskDirectory_spec_witness :
    "foo-2" ∉ ["foo", "foo-1"]
  ∧ ∃ i, i ≤ 100 ∧ "foo-2" = candidateName "foo" i ∧
      ∀ j, j < i → candidateName "foo" j ∈ ["foo", "foo-1"] :=
  (createTaskDirectory_spec ["foo", "foo-1"] "foo").1 "foo-2" (by decide)

/-- Counterexample to C6 as stated: the fallback name CreateTask uses
when the naming collaborator fails is derived from the process id, not
from a timestamp — it is unchanged under a timestamp change and changes
with the process id. -/
theorem fallbackName_pid_not_timestamp :
    generateTaskName none 1 5 = generateTaskName none 1 99
  ∧ generateTaskName none 1 5 ≠ generateTaskName none 2 5 := by
  decide

/-- C6 (amended): naming-collaborator failure is non-fatal — CreateTask
behaves exactly as if the collaborator had returned the deterministic
process-id-derived fallback name, and still creates the task whenever
directory allocation and the content save succeed. -/
theorem createTask_fallback (e : CreateEnv) (h : e.claudeResult = none) :
    createTask e =
      createTask { e with claudeResult := some (fallbackName e.pid) }
  ∧ (e.saveOk = true →
      ∀ n, createTaskDirectory e.existing (fallbackName e.pid) = some n →
        createTask e = some n) := by
  obtain ⟨cr, pid, ts, ex, so⟩ := e
  simp only at h
  subst h
  constructor
  · rfl
  · intro hso n hd
    simp only at hso hd
    subst hso
    simp [createTask, generateTaskName, hd]

/-- Witness for C6 (amended): with the collaborator failing, pid 7, no
existing directories and a succeeding save, CreateTask creates task-7. -/
theorem createTask_fallback_witness :
    createTask ⟨none, 7, 0, [], true⟩ = some "task-7" :=
  (createTask_fallback ⟨none, 7, 0, [], true⟩ rfl).2 rfl "task-7"
    (by decide)

theorem branchMerged_eq_true_iff (listing : Option (List String))
    (branch : String) :
    branchMerged listing branch = true ↔
      ∃ lines, listing = some lines ∧ ∃ l ∈ lines, lineName l = branch := by
  cases listing with
  | none => simp [branchMerged]
  | some lines =>
    simp [branchMerged, List.any_eq_true]

/-- Counterexample to C3 as stated: a task with no recorded review
request whose branch was merged into trunk and then deleted externally
(the branch neither exists nor appears in the merged-branch listing) is
reported not landed, contradicting the claim's opening universal. -/
theorem isTaskMerged_no_pr_deleted_branch :
    isTaskMerged ⟨.notFound, fun _ => some true, some [], []⟩ "fix-login"
      = false
  ∧ hasPR (ReadResult.notFound) = false := by
  decide

/-- C3 (amended): provided every name in the merged-branch listing is
an existing branch (git lists only live branches), landed is true iff a
recorded review request loads as a positive number the platform reports
merged, or the branch still exists and appears in trunk's merged-branch
listing; so a merged-then-deleted branch is reported landed exactly
when a recorded review request proves the merge. -/
theorem isTaskMerged_iff (e : MergeEnv) (t : String)
    (hsub : ∀ l ∈ e.mergedListing.getD [], lineName l ∈ e.existingBranches) :
    isTaskMerged e t = true ↔
      (hasPR e.prFile = true ∧
        ∃ n : Int, loadPRNumber e.prFile = (n, none) ∧ 0 < n ∧
          e.prMergedResult n = some true)
      ∨ (t ∈ e.existingBranches ∧ branchMerged e.mergedListing t = true) := by
  unfold isTaskMerged
  rw [Bool.or_eq_true]
  constructor
  · rintro (hpr | hbm)
    · left
      cases h1 : hasPR e.prFile with
      | false =>
        rw [h1] at hpr
        simp at hpr
      | true =>
        rw [h1] at hpr
        simp only [if_true] at hpr
        rcases h2 : loadPRNumber e.prFile with ⟨n, err⟩
        rw [h2] at hpr
        cases err with
        | some e1 => simp at hpr
        | none =>
          by_cases h3 : (0 : Int) < n
          · cases h4 : e.prMergedResult n with
            | none => simp [h3, h4] at hpr
            | some b =>
              cases b with
              | false => simp [h3, h4] at hpr
              | true => exact ⟨rfl, n, rfl, h3, h4⟩
          · simp [h3] at hpr
    · right
      refine ⟨?_, hbm⟩
      obtain ⟨lines, hl, l, hml, hname⟩ :=
        (branchMerged_eq_true_iff _ _).mp hbm
      have hmem := hsub l (by rw [hl]; exact hml)
      rwa [hname] at hmem
  · rintro (⟨h1, n, h2, h3, h4⟩ | ⟨hex, hbm⟩)
    · left
      rw [h1, if_pos rfl, h2]
      simp [h3, h4]
    · right
      exact hbm

/-- Witness for C3 (amended): a task with no review request whose
branch feature-x still exists and is listed merged into trunk is
reported landed. -/
theorem isTaskMerged_iff_witness :
    isTaskMerged ⟨.notFound, fun _ => none, some ["* feature-x"],
      ["feature-x"]⟩ "feature-x" = true :=
  (isTaskMerged_iff ⟨.notFound, fun _ => none, some ["* feature-x"],
      ["feature-x"]⟩ "feature-x" (by decide)).mpr
    (Or.inr ⟨by decide, by decide⟩)

/-- Counterexample to C8 as stated: the copy step excludes every entry
named .git at any depth, not only the top-level marker itself — a
backup file sub/.git is absent from the restored tree although it is
not the working-tree marker. -/
theorem recoverInvalidGit_nested_git_not_copied :
    (recoverInvalidGit true true [[".git"]]
      ⟨some [["sub", ".git"], ["main.go"]], none, true⟩).result
        = RecResult.ok
  ∧ ["sub", ".git"] ∉
      ((recoverInvalidGit true true [[".git"]]
        ⟨some [["sub", ".git"], ["main.go"]], none, true⟩).state.origTree.getD
          [])
  ∧ ["main.go"] ∈
      ((recoverInvalidGit true true [[".git"]]
        ⟨some [["sub", ".git"], ["main.go"]], none, true⟩).state.origTree.getD
          []) := by
  decide

/-- C8 (amended): repair of an invalid working-tree marker moves the
workspace aside as a backup, recreates the worktree requesting a new
branch exactly when the named branch no longer exists, copies all
backup contents except entries named .git (the marker, at any depth)
into the fresh tree, and discards the backup; when worktree recreation
fails the backup is moved back to the original path before the error is
returned, and in every outcome a directory remains at the original path
or at the backup path. -/
theorem recoverInvalidGit_spec (addOk copyOk : Bool) (fresh : List FPath)
    (s : RecState) (wt : List FPath) (h : s.origTree = some wt) :
    (addOk = false →
      recoverInvalidGit addOk copyOk fresh s =
        ⟨⟨some wt, none, s.branchExists⟩, .addFailed, !s.branchExists⟩)
  ∧ (addOk = true →
      (recoverInvalidGit addOk copyOk fresh s).branchCreateRequested
        = !s.branchExists)
  ∧ (addOk = true → copyOk = true →
      recoverInvalidGit addOk copyOk fresh s =
        ⟨⟨some (fresh ++ wt.filter copyKeep), none, true⟩, .ok,
          !s.branchExists⟩)
  ∧ (∀ p : FPath, p ∈ fresh ++ wt.filter copyKeep ↔
      p ∈ fresh ∨ (p ∈ wt ∧ p.contains ".git" = false))
  ∧ ((recoverInvalidGit addOk copyOk fresh s).state.origTree.isSome = true
      ∨ (recoverInvalidGit addOk copyOk fresh s).state.backupTree.isSome
          = true) := by
  obtain ⟨ot, bt, be⟩ := s
  simp only at h
  subst h
  refine ⟨?_, ?_, ?_, ?_, ?_⟩
  · intro ha
    subst ha
    rfl
  · intro ha
    subst ha
    cases copyOk <;> rfl
  · intro ha hc
    subst ha
    subst hc
    rfl
  · intro p
    simp only [List.mem_append, List.mem_filter, copyKeep,
      Bool.not_eq_true']
  · cases addOk <;> cases copyOk <;> simp [recoverInvalidGit]

/-- Witness for C8 (amended): when worktree recreation fails, the
backup is restored to the original path and the failure is surfaced
with no branch-creation request for the still-existing branch. -/
theorem recoverInvalidGit_spec_witness :
    recoverInvalidGit false true [[".git"]] ⟨some [["a.txt"]], none, true⟩ =
      ⟨⟨some [["a.txt"]], none, true⟩, .addFailed, false⟩ :=
  (recoverInvalidGit_spec false true [[".git"]]
    ⟨some [["a.txt"]], none, true⟩ [["a.txt"]] rfl).1 rfl

end TAW
